import Mathlib

/-!
Verification of the order-explosion core of `streamlit_app.py`
(Albaran_PackingList).

The embedding models the Python values flowing through
`build_origin_hs_lookup`, `explode_order_row`, `explode_order_raw` and
`fetch_all_products`.  Numbers are rationals (Python floats are binary, but
every claim's arithmetic is exact at the precision involved); `None` and
strings are explicit constructors; Python exceptions (`TypeError` from
arithmetic on `None`) are modelled with `Except`.
-/

deriving instance DecidableEq for Except

namespace Albaran

/-- A Python value as it appears in the JSON documents handled by the app:
`None`, a number, or a string.  (Lists/dicts are modelled structurally by the
record types below; booleans and other types never reach the modelled code
paths in the claims.) -/
inductive PyVal where
  | vNone : PyVal
  | vNum : ℚ → PyVal
  | vStr : String → PyVal
deriving DecidableEq, Repr

/-- Python `str.lower()` (ASCII case folding; the attribute names involved
are ASCII). -/
def pyLower (s : String) : String := ⟨s.data.map Char.toLower⟩

/-- Python `str.strip()`: drop leading and trailing whitespace. -/
def pyStrip (s : String) : String :=
  ⟨((s.data.dropWhile Char.isWhitespace).reverse.dropWhile Char.isWhitespace).reverse⟩

/-- Lexicographic comparison of code-point sequences — the order Python's
`<` induces on strings, as used by `list.sort`. -/
def strLeB : List Char → List Char → Bool
  | [], _ => true
  | _ :: _, [] => false
  | a :: as, b :: bs => if a < b then true else if a = b then strLeB as bs else false

/-- `s ≤ t` in Python's string order (proved below to agree with Lean's
`String` order). -/
def labLe (s t : String) : Prop := strLeB s.data t.data = true

instance : DecidableRel labLe := fun s t =>
  inferInstanceAs (Decidable (strLeB s.data t.data = true))

/-- Python truthiness for the values above: `None`, `0` and `""` are falsy. -/
def PyVal.truthy : PyVal → Bool
  | PyVal.vNone => false
  | PyVal.vNum q => decide (q ≠ 0)
  | PyVal.vStr s => decide (s ≠ "")

/-- Python `a or b`: returns `a` if `a` is truthy, else `b`. -/
def pyOr (a b : PyVal) : PyVal := if a.truthy then a else b

/-- The numeric payload of a value, if it is a number. -/
def numOf : PyVal → Option ℚ
  | PyVal.vNum q => some q
  | _ => Option.none

/-- Round-half-to-even on rationals (the tie-breaking rule of Python's
`round`). -/
def rhe (x : ℚ) : ℤ :=
  let f := ⌊x⌋
  let r := x - (f : ℚ)
  if r < 1 / 2 then f
  else if 1 / 2 < r then f + 1
  else if f % 2 = 0 then f else f + 1

/-- Python `round(x, n)` on exact rationals. -/
def roundTo (n : ℕ) (x : ℚ) : ℚ := (rhe (x * 10 ^ n) : ℚ) / 10 ^ n

/-- Numeric value of a run of decimal digits. -/
def digitsVal (cs : List Char) : ℕ :=
  cs.foldl (fun n c => 10 * n + (c.toNat - 48)) 0

/-- Python `float(s)` on a string, for the plain decimal forms
`[sign] digits [. digits]` (surrounding whitespace stripped).  Exotic forms
accepted by Python (`1e3`, `inf`, `nan`, underscores) are not modelled; no
claim involves them. -/
def parseFloat? (s : String) : Option ℚ :=
  let core : List Char → Option ℚ := fun cs =>
    let ip := cs.takeWhile Char.isDigit
    let rest := cs.dropWhile Char.isDigit
    match rest with
    | [] => if ip.isEmpty then Option.none else some ((digitsVal ip : ℚ))
    | '.' :: fp =>
        if fp.all Char.isDigit && !(ip.isEmpty && fp.isEmpty) then
          some ((digitsVal ip : ℚ) + (digitsVal fp : ℚ) / 10 ^ fp.length)
        else Option.none
    | _ => Option.none
  match (pyStrip s).data with
  | '-' :: cs => (core cs).map (fun q => -q)
  | '+' :: cs => core cs
  | cs => core cs

/-- Python `float(v)` where both `TypeError` (on `None`) and `ValueError`
(on a non-numeric string) are caught by the caller: modelled as `Option`. -/
def pyFloat? : PyVal → Option ℚ
  | PyVal.vNum q => some q
  | PyVal.vStr s => parseFloat? s
  | PyVal.vNone => Option.none

/-- Arithmetic on a value that Python would coerce as a number; any
non-number raises `TypeError` (e.g. `None / 100`). -/
def asNum : PyVal → Except String ℚ
  | PyVal.vNum q => Except.ok q
  | _ => Except.error "TypeError"

/-- One `{name, value}` attribute of a product.  `attr.get("name", "")` is
the stored name (non-string names, on which Python's `.strip()` would raise,
are not modelled); `attr.get("value")` defaults to `None`. -/
structure Attr where
  name : String
  value : PyVal
deriving DecidableEq, Repr

/-- A product as returned by the listing endpoint; `Option.none` marks an
absent key. -/
structure Product where
  id : Option PyVal := Option.none
  productId : Option PyVal := Option.none
  weight : Option PyVal := Option.none
  attributes : Option (List Attr) := Option.none
deriving DecidableEq, Repr

/-- One entry of the catalog lookup built by `build_origin_hs_lookup`:
`{"Origin": …, "HS Code": …, "SubCat": …, "Attributes": …, "Weight": …}`. -/
structure CatEntry where
  origin : PyVal
  hsCode : PyVal
  subCat : PyVal
  attributes : Option (List Attr)
  weight : PyVal
deriving DecidableEq, Repr

/-- `pid = p.get("id") or p.get("productId")`. -/
def pidOf (p : Product) : PyVal :=
  pyOr (p.id.getD PyVal.vNone) (p.productId.getD PyVal.vNone)

/-- One step of the attribute scan of `build_origin_hs_lookup`: the state is
`(origin, hs_code, subcat)` and a recognized name (trimmed, lowercased)
overwrites its component. -/
def scanAttrStep (st : PyVal × PyVal × PyVal) (a : Attr) : PyVal × PyVal × PyVal :=
  let nm := pyLower (pyStrip a.name)
  if nm = "origen" then (a.value, st.2.1, st.2.2)
  else if nm = "taric" then (st.1, a.value, st.2.2)
  else if nm = "product line" then (st.1, st.2.1, a.value)
  else st

/-- The catalog entry built for one product (the body of the loop of
`build_origin_hs_lookup` after the `pid` guard). -/
def entryOf (p : Product) : CatEntry :=
  let st := (p.attributes.getD []).foldl scanAttrStep
    (PyVal.vNone, PyVal.vNone, PyVal.vStr "Sin linea de productos")
  { origin := st.1, hsCode := st.2.1, subCat := st.2.2,
    attributes := p.attributes, weight := p.weight.getD PyVal.vNone }

/-- `lookup[pid] = entry` on a Python dict modelled as an insertion-ordered
association list: an existing key is overwritten in place, a new key is
appended. -/
def dinsert (m : List (PyVal × CatEntry)) (k : PyVal) (v : CatEntry) :
    List (PyVal × CatEntry) :=
  if m.any (fun kv => kv.1 == k) then
    m.map (fun kv => if kv.1 = k then (k, v) else kv)
  else m ++ [(k, v)]

/-- `build_origin_hs_lookup(all_products)`: products with a falsy id
(`if not pid: continue`) are skipped, the rest are inserted keyed by id. -/
def build_origin_hs_lookup (ps : List Product) : List (PyVal × CatEntry) :=
  ps.foldl
    (fun lk p => if (pidOf p).truthy then dinsert lk (pidOf p) (entryOf p) else lk)
    []

/-- `catalog_lookup.get(pid, {})`: `Option.none` stands for the empty dict
(all its `.get`s return `None`). -/
def catGet (lk : List (PyVal × CatEntry)) (k : PyVal) : Option CatEntry :=
  (lk.find? (fun kv => kv.1 == k)).map (fun kv => kv.2)

/-- `info.get("Origin")`. -/
def infoOrigin : Option CatEntry → PyVal
  | Option.none => PyVal.vNone
  | some e => e.origin

/-- `info.get("HS Code")`. -/
def infoHs : Option CatEntry → PyVal
  | Option.none => PyVal.vNone
  | some e => e.hsCode

/-- `info.get("SubCat")`. -/
def infoSubCat : Option CatEntry → PyVal
  | Option.none => PyVal.vNone
  | some e => e.subCat

/-- `info.get("Weight")`. -/
def infoWeight : Option CatEntry → PyVal
  | Option.none => PyVal.vNone
  | some e => e.weight

/-- `info.get("Attributes") or []`. -/
def infoAttrs : Option CatEntry → List Attr
  | Option.none => []
  | some e => e.attributes.getD []

/-- The net-weight scan shared by both exploders: parse each attribute value
with `float` (failures `continue`), and keep the value whenever the raw name
equals `"Peso Neto"` exactly. -/
def scanNet (attrs : List Attr) : Option ℚ :=
  attrs.foldl
    (fun acc a =>
      match pyFloat? a.value with
      | Option.none => acc
      | some v => if a.name = "Peso Neto" then some v else acc)
    Option.none

/-- One line item embedded in an albarán's `products` array; `Option.none`
marks an absent key, `some PyVal.vNone` a key present with `null`. -/
structure LineItem where
  sku : Option PyVal := Option.none
  name : Option PyVal := Option.none
  units : Option PyVal := Option.none
  quantity : Option PyVal := Option.none
  price : Option PyVal := Option.none
  unitPrice : Option PyVal := Option.none
  tax : Option PyVal := Option.none
  discount : Option PyVal := Option.none
  productId : Option PyVal := Option.none
  weight : Option PyVal := Option.none
deriving DecidableEq, Repr

/-- `units = item.get("units") or item.get("quantity")`. -/
def resolveUnits (item : LineItem) : PyVal :=
  pyOr (item.units.getD PyVal.vNone) (item.quantity.getD PyVal.vNone)

/-- `unit_price = item.get("price") or item.get("unitPrice")`. -/
def resolvePrice (item : LineItem) : PyVal :=
  pyOr (item.price.getD PyVal.vNone) (item.unitPrice.getD PyVal.vNone)

/-- `round(unit_price * discount, 2) if units is not None and unit_price is
not None else None` — a non-numeric `unit_price` passing the guard raises
`TypeError`. -/
def discountStep (units up0 : PyVal) (discount : ℚ) : Except String (Option ℚ) :=
  if units ≠ PyVal.vNone ∧ up0 ≠ PyVal.vNone then
    match up0 with
    | PyVal.vNum p => Except.ok (some (roundTo 2 (p * discount)))
    | _ => Except.error "TypeError"
  else Except.ok Option.none

/-- `round(units * unit_price, 2) if units is not None and unit_price is not
None else None`, with the already-discounted price — non-numeric `units`
passing the guard raises `TypeError` (`str * float`). -/
def guardedMulRound (units : PyVal) (up : Option ℚ) : Except String (Option ℚ) :=
  if units ≠ PyVal.vNone ∧ up ≠ Option.none then
    match units, up with
    | PyVal.vNum u, some v => Except.ok (some (roundTo 2 (u * v)))
    | _, _ => Except.error "TypeError"
  else Except.ok Option.none

/-- `a * b if a is not None and b is not None else None` for the weight
totals.  Only numeric operands are modelled (Python's string repetition for
`str * int` operands never occurs in any claim). -/
def pyMulOpt (a b : PyVal) : Except String (Option ℚ) :=
  if a ≠ PyVal.vNone ∧ b ≠ PyVal.vNone then
    match a, b with
    | PyVal.vNum x, PyVal.vNum y => Except.ok (some (x * y))
    | _, _ => Except.error "TypeError"
  else Except.ok Option.none

/-- Repack an optional number as the Python value it came from. -/
def optToPy : Option ℚ → PyVal
  | Option.none => PyVal.vNone
  | some q => PyVal.vNum q

/-- One output data row of either exploder (the Python dict with keys
`SKU, Item, Units, Unit Price, Subtotal, Total, Origin, HS Code, Net W.,
Total W., Gross W., Total Gross W.`). -/
structure RowData where
  sku : PyVal
  itemName : PyVal
  units : PyVal
  unitPrice : Option ℚ
  subtotal : Option ℚ
  total : Option ℚ
  origin : PyVal
  hsCode : PyVal
  netW : Option ℚ
  totalW : Option ℚ
  grossW : PyVal
  totalGrossW : Option ℚ
deriving DecidableEq, Repr

/-- The per-item body of `explode_order_row` (lines 131–190 of the source),
which is also the tail shared with `explode_order_raw` from its `tax` line
onwards (lines 263–309; see `explodeItemRaw` for the raw variant's extra
line-262 computation).  Returns the grouping key (`info.get("SubCat")`) next
to the row.  Errors are the uncaught `TypeError`s Python would raise, in
evaluation order: `tax`, `discount`, discounted price, subtotal, gross-weight
total, net-weight total. -/
def explodeItem (lk : List (PyVal × CatEntry)) (item : LineItem) :
    Except String (PyVal × RowData) :=
  let units := resolveUnits item
  (asNum (item.tax.getD (PyVal.vNum 0))).bind (fun t =>
  (asNum (item.discount.getD (PyVal.vNum 0))).bind (fun d =>
  let tax := 1 + t / 100
  let discount := 1 - d / 100
  (discountStep units (resolvePrice item) discount).bind (fun unitPrice =>
  (guardedMulRound units unitPrice).bind (fun subtotal =>
  let total := subtotal.map (fun s => roundTo 2 (s * tax))
  let info := catGet lk (item.productId.getD PyVal.vNone)
  (pyMulOpt (infoWeight info) units).bind (fun tGrossW =>
  let netW := scanNet (infoAttrs info)
  (pyMulOpt (optToPy netW) units).bind (fun tNetW =>
  Except.ok (infoSubCat info,
    { sku := item.sku.getD PyVal.vNone
      itemName := item.name.getD PyVal.vNone
      units := units
      unitPrice := unitPrice
      subtotal := subtotal
      total := total
      origin := infoOrigin info
      hsCode := infoHs info
      netW := netW
      totalW := tNetW
      grossW := infoWeight info
      totalGrossW := tGrossW })))))))

/-- The per-item body of `explode_order_raw` (lines 257–309): before the
shared tail it evaluates line 262's
`t_gross_w = item.get("weight") * units if … else None` from the *item's
own* weight field — a value that is discarded (overwritten at line 280) but
whose `TypeError` (e.g. a string weight times float units) aborts the
explosion.  As everywhere in the model, the product is numeric-only: Python
would instead *succeed* by string repetition when the weight is a string and
the units an int, a case the ℚ-valued `vNum` (which merges Python's int and
float) cannot separate and which no claim involves. -/
def explodeItemRaw (lk : List (PyVal × CatEntry)) (item : LineItem) :
    Except String (PyVal × RowData) :=
  (pyMulOpt (item.weight.getD PyVal.vNone) (resolveUnits item)).bind
    (fun _ => explodeItem lk item)

/-- `explode_order_raw`: the flat per-item rows, in order; the first
per-row `TypeError` aborts the whole explosion. -/
def explode_order_raw (lk : List (PyVal × CatEntry)) (items : List LineItem) :
    Except String (List RowData) :=
  (items.mapM (explodeItemRaw lk)).map (List.map Prod.snd)

/-- `grouped.setdefault(subcategory, []).append(row_data)` on an
insertion-ordered dict of lists. -/
def groupIns (g : List (PyVal × List RowData)) (k : PyVal) (r : RowData) :
    List (PyVal × List RowData) :=
  if g.any (fun kv => kv.1 == k) then
    g.map (fun kv => if kv.1 = k then (kv.1, kv.2 ++ [r]) else kv)
  else g ++ [(k, [r])]

/-- The grouping loop of `explode_order_row`, keyed by the raw resolved
subcategory value. -/
def groupRows (prs : List (PyVal × RowData)) : List (PyVal × List RowData) :=
  prs.foldl (fun g pr => groupIns g pr.1 pr.2) []

/-- The members of the group keyed `k` (empty when no such group). -/
def groupGet (g : List (PyVal × List RowData)) (k : PyVal) : List RowData :=
  ((g.find? (fun kv => kv.1 == k)).map (fun kv => kv.2)).getD []

/-- The category label of a raw subcategory value:
`"Sin categoría" if subcat is None else str(subcat).strip()`.  (Numeric
subcategories would be formatted by Python's `str`; the rational printing
used here differs in spelling only and no claim touches them.) -/
def labelOf : PyVal → String
  | PyVal.vNone => "Sin categoría"
  | PyVal.vStr s => pyStrip s
  | PyVal.vNum q => pyStrip (toString q)

/-- `pd.to_numeric(column, errors="coerce")` on one cell: numbers pass
through, numeric strings are parsed, anything else becomes NaN (`none`). -/
def coerceNum : PyVal → Option ℚ
  | PyVal.vNum q => some q
  | PyVal.vStr s => parseFloat? s
  | PyVal.vNone => Option.none

/-- `column.sum(min_count=1)`: the sum of the defined cells, NaN (`none`)
when every cell is undefined. -/
def sumMin1 (xs : List (Option ℚ)) : Option ℚ :=
  match xs.filterMap id with
  | [] => Option.none
  | vs => some vs.sum

/-- The `(subcat-label, members, group-subtotal)` triples built before
sorting (lines 197–207). -/
def subtotalsOf (g : List (PyVal × List RowData)) :
    List (String × List RowData × Option ℚ) :=
  g.map (fun kv => (labelOf kv.1, kv.2, sumMin1 (kv.2.map (fun r => r.subtotal))))

/-- The sort key of `subtotals.sort(key=lambda x: x[0])`: Python's
code-point comparison of the labels. -/
def groupLe (a b : String × List RowData × Option ℚ) : Prop := labLe a.1 b.1

instance : DecidableRel groupLe := fun a b =>
  inferInstanceAs (Decidable (labLe a.1 b.1))

/-- `subtotals.sort(key=lambda x: x[0])`: Python's sort is stable and
ascending; insertion sort over the total preorder `groupLe` computes the
same list. -/
def sortSubtotals (l : List (String × List RowData × Option ℚ)) :
    List (String × List RowData × Option ℚ) :=
  List.insertionSort groupLe l

/-- One row of the grouped output: the category-header dict
(`Item = "——— label ———"`, all other fields blank), a data row, or the
subtotal dict (`Item = "Subtotal"`, with the four aggregated fields and the
rest blank). -/
inductive OutRow where
  | header : String → OutRow
  | data : RowData → OutRow
  | subtotalRow : Option ℚ → Option ℚ → Option ℚ → Option ℚ → OutRow
deriving DecidableEq, Repr

/-- Emission of one sorted group (lines 212–246): header, the member rows in
stored order, then the subtotal row aggregating Units (1 decimal), Subtotal
and Total (2 decimals) and Total W. (3 decimals) with `min_count=1`
semantics; `round(NaN, n)` stays NaN.  The group-subtotal component of the
triple is never emitted, as in the source. -/
def emitGroup (g : String × List RowData × Option ℚ) : List OutRow :=
  OutRow.header g.1 ::
    (g.2.1.map OutRow.data ++
      [OutRow.subtotalRow
        ((sumMin1 (g.2.1.map (fun r => coerceNum r.units))).map (roundTo 1))
        ((sumMin1 (g.2.1.map (fun r => r.subtotal))).map (roundTo 2))
        ((sumMin1 (g.2.1.map (fun r => r.total))).map (roundTo 2))
        ((sumMin1 (g.2.1.map (fun r => r.totalW))).map (roundTo 3))])

/-- `explode_order_row`: per-item rows, grouped by resolved subcategory,
groups sorted by label, each emitted as header / members / subtotal. -/
def explode_order_row (lk : List (PyVal × CatEntry)) (items : List LineItem) :
    Except String (List OutRow) :=
  (items.mapM (explodeItem lk)).map (fun prs =>
    ((sortSubtotals (subtotalsOf (groupRows prs))).map emitGroup).flatten)

/-!
Model of `fetch_all_products`.  The network is an oracle mapping
`(page, attempt)` to `Option`: `Option.none` is a `RequestException`
(connection failure or bad HTTP status), `some chunk` a successful response
whose JSON envelope has already been unwrapped to the product list
(`data.get("data", data)`; a malformed envelope, which the source would
treat like an empty response, is represented by `some []`).
-/

/-- Outcome of the three-attempt retry loop for one page. -/
inductive PageResult where
  | gotChunk : List Product → PageResult
  | emptyResp : PageResult
  | exhausted : PageResult
deriving DecidableEq, Repr

/-- `for attempt in range(3)` with its `else` clause: each failed attempt
logs a request `(page, limit=100)` and sleeps `2 ** attempt` seconds; an
empty successful chunk raises `ValueError`, a non-empty one breaks out. -/
def tryPage (oracle : ℕ → ℕ → Option (List Product)) (page : ℕ) :
    List (ℕ × ℕ) × List ℚ × PageResult :=
  match oracle page 0 with
  | some c => ([(page, 100)], [], if c = [] then PageResult.emptyResp else PageResult.gotChunk c)
  | Option.none =>
    match oracle page 1 with
    | some c =>
        ([(page, 100), (page, 100)], [1],
          if c = [] then PageResult.emptyResp else PageResult.gotChunk c)
    | Option.none =>
      match oracle page 2 with
      | some c =>
          ([(page, 100), (page, 100), (page, 100)], [1, 2],
            if c = [] then PageResult.emptyResp else PageResult.gotChunk c)
      | Option.none =>
          ([(page, 100), (page, 100), (page, 100)], [1, 2, 4], PageResult.exhausted)

/-- How the `while True` loop was exited (the exception reaching the outer
`except (ConnectionError, StopIteration, ValueError)`). -/
inductive ExitKind where
  | stopIteration : ExitKind
  | valueError : ExitKind
  | connError : ExitKind
deriving DecidableEq, Repr

/-- Requests issued and sleeps performed so far. -/
structure FetchState where
  requests : List (ℕ × ℕ)
  sleeps : List ℚ
deriving DecidableEq, Repr

/-- The `while True` pagination loop: accumulate full chunks (sleeping 0.3 s
between pages), stop with `StopIteration` on a chunk shorter than the page
size, `ValueError` on an empty chunk, `ConnectionError` when a page's
retries are exhausted.  `fuel` bounds the number of pages so the model is
total; `Option.none` marks fuel exhaustion (an endless listing), which the
source would loop on forever. -/
def fetchPages (oracle : ℕ → ℕ → Option (List Product)) :
    ℕ → ℕ → List Product → FetchState →
      Option (FetchState × List Product × ExitKind)
  | 0, _, _, _ => Option.none
  | fuel + 1, page, acc, st =>
    match tryPage oracle page with
    | (reqs, slps, PageResult.gotChunk c) =>
        let st' : FetchState :=
          ⟨st.requests ++ reqs, st.sleeps ++ slps⟩
        if c.length < 100 then
          some (st', acc ++ c, ExitKind.stopIteration)
        else
          fetchPages oracle fuel (page + 1) (acc ++ c)
            ⟨st'.requests, st'.sleeps ++ [3 / 10]⟩
    | (reqs, slps, PageResult.emptyResp) =>
        some (⟨st.requests ++ reqs, st.sleeps ++ slps⟩, acc, ExitKind.valueError)
    | (reqs, slps, PageResult.exhausted) =>
        some (⟨st.requests ++ reqs, st.sleeps ++ slps⟩, acc, ExitKind.connError)

/-- What `fetch_all_products` returns together with its observable effects:
whether the backup file was (re)written and whether it was read. -/
structure FetchOut where
  result : List Product
  savedBackup : Bool
  usedBackup : Bool
  state : FetchState
deriving DecidableEq, Repr

/-- `fetch_all_products`: run the pagination loop from page 1; on any exit,
return the fetched products if at least one page was accumulated (persisting
them to the backup file), else fall back to the backup file's contents
(`backup`, `Option.none` when `products_backup.json` does not exist), else
return `[]`.  No exception escapes. -/
def fetch_all_products (oracle : ℕ → ℕ → Option (List Product)) (fuel : ℕ)
    (backup : Option (List Product)) : Option FetchOut :=
  match fetchPages oracle fuel 1 [] ⟨[], []⟩ with
  | Option.none => Option.none
  | some (st, acc, _) =>
      if acc ≠ [] then some ⟨acc, true, false, st⟩
      else
        match backup with
        | some b => some ⟨b, false, true, st⟩
        | Option.none => some ⟨[], false, false, st⟩

/-!
Statement vocabulary: closed forms and spec-side definitions the claim
theorems compare the program against.
-/

/-- Closed form of the discounted unit price for well-formed inputs. -/
def upVal (item : LineItem) (d : ℚ) : Option ℚ :=
  match numOf (resolveUnits item), numOf (resolvePrice item) with
  | some _, some p => some (roundTo 2 (p * (1 - d / 100)))
  | _, _ => Option.none

/-- Closed form of the subtotal for well-formed inputs. -/
def subVal (item : LineItem) (d : ℚ) : Option ℚ :=
  match numOf (resolveUnits item), upVal item d with
  | some u, some v => some (roundTo 2 (u * v))
  | _, _ => Option.none

/-- Product of two optional factors, undefined if either is missing. -/
def mulOptVal : Option ℚ → Option ℚ → Option ℚ
  | some a, some b => some (a * b)
  | _, _ => Option.none

/-- A value that is either absent (`None`) or a number. -/
def noneOrNum (v : PyVal) : Prop := v = PyVal.vNone ∨ ∃ q, v = PyVal.vNum q

/-- Spec-side aggregate: the sum of the defined members, undefined when
every member is undefined ("sum-with-at-least-one-value" semantics). -/
def specSum (xs : List (Option ℚ)) : Option ℚ :=
  if xs.all (fun x => x.isNone) then Option.none
  else some ((xs.filterMap id).sum)

/-- Spec-side selector: the value of the last attribute whose trimmed,
lowercased name equals `key`. -/
def lastAttr (key : String) (attrs : List Attr) : Option PyVal :=
  ((attrs.filter (fun a => pyLower (pyStrip a.name) == key)).getLast?).map
    (fun a => a.value)

/-- Spec-side selector: the parsed value of the last attribute named exactly
`"Peso Neto"` whose value parses as a number. -/
def lastNet (attrs : List Attr) : Option ℚ :=
  ((attrs.filter
      (fun a => a.name == "Peso Neto" && (pyFloat? a.value).isSome)).getLast?).bind
    (fun a => pyFloat? a.value)

/-- An attribute name the catalog builder recognizes (after trim + lower). -/
def recognizedName (n : String) : Prop :=
  pyLower (pyStrip n) = "origen" ∨ pyLower (pyStrip n) = "taric" ∨
    pyLower (pyStrip n) = "product line"

/-!
Concrete inputs for the end-to-end scenarios and counterexamples.
-/

/-- Scenario 2 of the spec: units=3, unitPrice=10, discount=10, tax=21. -/
def item3 : LineItem :=
  { units := some (PyVal.vNum 3), price := some (PyVal.vNum 10),
    tax := some (PyVal.vNum 21), discount := some (PyVal.vNum 10) }

/-- The row scenario 2 produces: discounted price 9.00, subtotal 27.00,
total 32.67. -/
def row3 : RowData :=
  { sku := PyVal.vNone, itemName := PyVal.vNone, units := PyVal.vNum 3,
    unitPrice := some 9, subtotal := some 27, total := some (3267 / 100),
    origin := PyVal.vNone, hsCode := PyVal.vNone, netW := Option.none,
    totalW := Option.none, grossW := PyVal.vNone, totalGrossW := Option.none }

/-- A product whose `product line` attribute is `"A"`. -/
def prodA : Product :=
  { id := some (PyVal.vStr "PA"),
    attributes := some [⟨"Product Line", PyVal.vStr "A"⟩] }

/-- A product whose `product line` attribute is `"B"`. -/
def prodB : Product :=
  { id := some (PyVal.vStr "PB"),
    attributes := some [⟨"product line", PyVal.vStr "B"⟩] }

/-- Catalog with the two products of scenario 3. -/
def catAB : List (PyVal × CatEntry) := build_origin_hs_lookup [prodA, prodB]

/-- Scenario 3, item mapping to subcategory `"A"`. -/
def itemA : LineItem :=
  { sku := some (PyVal.vStr "skuA"), units := some (PyVal.vNum 1),
    price := some (PyVal.vNum 2), productId := some (PyVal.vStr "PA") }

/-- Scenario 3, item mapping to subcategory `"B"`. -/
def itemB : LineItem :=
  { sku := some (PyVal.vStr "skuB"), units := some (PyVal.vNum 4),
    price := some (PyVal.vNum 5), productId := some (PyVal.vStr "PB") }

/-- The data row `itemA` produces. -/
def rowA : RowData :=
  { sku := PyVal.vStr "skuA", itemName := PyVal.vNone, units := PyVal.vNum 1,
    unitPrice := some 2, subtotal := some 2, total := some 2,
    origin := PyVal.vNone, hsCode := PyVal.vNone, netW := Option.none,
    totalW := Option.none, grossW := PyVal.vNone, totalGrossW := Option.none }

/-- The data row `itemB` produces. -/
def rowB : RowData :=
  { sku := PyVal.vStr "skuB", itemName := PyVal.vNone, units := PyVal.vNum 4,
    unitPrice := some 5, subtotal := some 20, total := some 20,
    origin := PyVal.vNone, hsCode := PyVal.vNone, netW := Option.none,
    totalW := Option.none, grossW := PyVal.vNone, totalGrossW := Option.none }

/-- A line item whose `tax` key is present but `null` — Python evaluates
`None / 100`. -/
def itemTaxNull : LineItem :=
  { sku := some (PyVal.vStr "X"), units := some (PyVal.vNum 2),
    price := some (PyVal.vNum 5), tax := some PyVal.vNone }

/-- A line item with `productId`, `units` and price all missing. -/
def itemBare : LineItem := {}

/-- A line item whose own `weight` field is a string while its units are
fractional: Python's `"x" * 2.5` raises `TypeError` at line 262 of the raw
exploder. -/
def itemWx : LineItem :=
  { units := some (PyVal.vNum (5 / 2)), weight := some (PyVal.vStr "x") }

/-- The degraded row `itemBare` produces. -/
def rowBare : RowData :=
  { sku := PyVal.vNone, itemName := PyVal.vNone, units := PyVal.vNone,
    unitPrice := Option.none, subtotal := Option.none, total := Option.none,
    origin := PyVal.vNone, hsCode := PyVal.vNone, netW := Option.none,
    totalW := Option.none, grossW := PyVal.vNone, totalGrossW := Option.none }

/-- A line item with `units = 0` and `quantity = 5`. -/
def item06 : LineItem :=
  { units := some (PyVal.vNum 0), quantity := some (PyVal.vNum 5),
    price := some (PyVal.vNum 10) }

/-- The row `item06` produces: the `0` in `units` is skipped by `or`, so
`quantity = 5` wins. -/
def row06 : RowData :=
  { sku := PyVal.vNone, itemName := PyVal.vNone, units := PyVal.vNum 5,
    unitPrice := some 10, subtotal := some 50, total := some 50,
    origin := PyVal.vNone, hsCode := PyVal.vNone, netW := Option.none,
    totalW := Option.none, grossW := PyVal.vNone, totalGrossW := Option.none }

/-- A product with duplicate `origen` attributes (case/space variants) and
three `Peso Neto` attributes, the middle one numeric-string, the first
non-numeric. -/
def prodDup : Product :=
  { id := some (PyVal.vStr "PD"),
    attributes := some
      [⟨"Origen", PyVal.vStr "ES"⟩, ⟨" origen ", PyVal.vStr "FR"⟩,
        ⟨"Peso Neto", PyVal.vStr "abc"⟩, ⟨"Peso Neto", PyVal.vStr "25"⟩,
        ⟨"Peso Neto", PyVal.vNum 7⟩] }

/-- A line item whose product id points at `prodDup`. -/
def itemD : LineItem :=
  { productId := some (PyVal.vStr "PD"), units := some (PyVal.vNum 2) }

/-- A product with an id but no recognized attribute. -/
def prodPlain : Product := { id := some (PyVal.vStr "PP") }

/-- A product with no id at all. -/
def prodNoId : Product := {}

/-- An oracle whose every request fails. -/
def oracleFail : ℕ → ℕ → Option (List Product) := fun _ _ => Option.none

/-! ## Helper lemmas -/

theorem vNum_ne_vNone (q : ℚ) : PyVal.vNum q ≠ PyVal.vNone :=
  fun h => PyVal.noConfusion h

theorem vStr_ne_vNone (s : String) : PyVal.vStr s ≠ PyVal.vNone :=
  fun h => PyVal.noConfusion h

/-- Characterization of `explodeItem` on well-formed numeric fields: it
succeeds and every derived field has its closed form. -/
theorem explodeItem_ok (lk : List (PyVal × CatEntry)) (item : LineItem) (t d : ℚ)
    (ht : item.tax.getD (PyVal.vNum 0) = PyVal.vNum t)
    (hd : item.discount.getD (PyVal.vNum 0) = PyVal.vNum d)
    (hu : noneOrNum (resolveUnits item))
    (hp : noneOrNum (resolvePrice item))
    (hw : noneOrNum (infoWeight (catGet lk (item.productId.getD PyVal.vNone)))) :
    explodeItem lk item =
      Except.ok (infoSubCat (catGet lk (item.productId.getD PyVal.vNone)),
        { sku := item.sku.getD PyVal.vNone,
          itemName := item.name.getD PyVal.vNone,
          units := resolveUnits item,
          unitPrice := upVal item d,
          subtotal := subVal item d,
          total := (subVal item d).map (fun s => roundTo 2 (s * (1 + t / 100))),
          origin := infoOrigin (catGet lk (item.productId.getD PyVal.vNone)),
          hsCode := infoHs (catGet lk (item.productId.getD PyVal.vNone)),
          netW := scanNet (infoAttrs (catGet lk (item.productId.getD PyVal.vNone))),
          totalW :=
            mulOptVal
              (scanNet (infoAttrs (catGet lk (item.productId.getD PyVal.vNone))))
              (numOf (resolveUnits item)),
          grossW := infoWeight (catGet lk (item.productId.getD PyVal.vNone)),
          totalGrossW :=
            mulOptVal
              (numOf (infoWeight (catGet lk (item.productId.getD PyVal.vNone))))
              (numOf (resolveUnits item)) }) := by
  cases hnet : scanNet (infoAttrs (catGet lk (item.productId.getD PyVal.vNone))) with
  | none =>
    rcases hu with hu | ⟨u, hu⟩ <;> rcases hp with hp | ⟨p, hp⟩ <;>
      rcases hw with hw | ⟨w, hw⟩ <;>
    simp [explodeItem, ht, hd, hu, hp, hw, hnet, asNum, discountStep,
      guardedMulRound, pyMulOpt, optToPy, upVal, subVal, mulOptVal, numOf,
      Except.bind, vNum_ne_vNone]
  | some nv =>
    rcases hu with hu | ⟨u, hu⟩ <;> rcases hp with hp | ⟨p, hp⟩ <;>
      rcases hw with hw | ⟨w, hw⟩ <;>
    simp [explodeItem, ht, hd, hu, hp, hw, hnet, asNum, discountStep,
      guardedMulRound, pyMulOpt, optToPy, upVal, subVal, mulOptVal, numOf,
      Except.bind, vNum_ne_vNone]

/-! ## Claim C1 -/

/-- Claim C1: for every line item with both a units value and a price value
defined, the exploder computes the discounted unit price as
`round(price * (1 - discount/100), 2)`, the subtotal as
`round(units * discountedUnitPrice, 2)`, and the total as
`round(subtotal * (1 + tax/100), 2)`; in particular a line item with
units=3, unitPrice=10, discount=10, tax=21 yields discountedPrice=9.00,
subtotal=27.00, total=32.67. -/
theorem C1_discount_subtotal_total :
    (∀ (lk : List (PyVal × CatEntry)) (item : LineItem) (u p t d : ℚ),
      resolveUnits item = PyVal.vNum u → resolvePrice item = PyVal.vNum p →
      item.tax.getD (PyVal.vNum 0) = PyVal.vNum t →
      item.discount.getD (PyVal.vNum 0) = PyVal.vNum d →
      noneOrNum (infoWeight (catGet lk (item.productId.getD PyVal.vNone))) →
      ∃ sc row, explodeItem lk item = Except.ok (sc, row)
        ∧ row.unitPrice = some (roundTo 2 (p * (1 - d / 100)))
        ∧ row.subtotal = some (roundTo 2 (u * roundTo 2 (p * (1 - d / 100))))
        ∧ row.total = some (roundTo 2
            (roundTo 2 (u * roundTo 2 (p * (1 - d / 100))) * (1 + t / 100))))
    ∧ explode_order_raw [] [item3] = Except.ok [row3] := by
  constructor
  · intro lk item u p t d hu hp ht hd hw
    refine ⟨_, _,
      explodeItem_ok lk item t d ht hd (Or.inr ⟨u, hu⟩) (Or.inr ⟨p, hp⟩) hw,
      ?_, ?_, ?_⟩
    · simp [upVal, hu, hp, numOf]
    · simp [subVal, upVal, hu, hp, numOf]
    · simp [subVal, upVal, hu, hp, numOf]
  · norm_num [explode_order_raw, explodeItemRaw, item3, row3, List.mapM,
      List.mapM.loop, explodeItem, resolveUnits, resolvePrice, asNum, discountStep,
      guardedMulRound, pyMulOpt, optToPy, catGet, infoWeight, infoAttrs,
      infoOrigin, infoHs, infoSubCat, scanNet, pyOr, PyVal.truthy, Option.getD,
      Except.bind, Except.map, List.find?, List.foldl, vNum_ne_vNone,
      vStr_ne_vNone, Option.some_ne_none, Option.map_some', roundTo, rhe]

/-- Witness for C1: the hypotheses are satisfied by scenario 2's item. -/
theorem C1_discount_subtotal_total_witness :
    resolveUnits item3 = PyVal.vNum 3 ∧
      (∃ sc row, explodeItem [] item3 = Except.ok (sc, row)
        ∧ row.unitPrice = some (roundTo 2 (10 * (1 - 10 / 100)))
        ∧ row.subtotal = some (roundTo 2 (3 * roundTo 2 (10 * (1 - 10 / 100))))
        ∧ row.total = some (roundTo 2
            (roundTo 2 (3 * roundTo 2 (10 * (1 - 10 / 100))) * (1 + 21 / 100)))) :=
  ⟨by decide, C1_discount_subtotal_total.1 [] item3 3 10 21 10 (by decide)
    (by decide) (by decide) (by decide) (Or.inl (by decide))⟩

/-! ## Claim C5 -/

/-- Claim C5 (code bug): an item with missing `productId`, `units` or price
degrades gracefully, but a `tax` (or `discount`) key present with `null`
makes `item.get("tax", 0) / 100` evaluate `None / 100`, so a `TypeError`
escapes both exploders and the whole explosion aborts — contradicting the
spec's "no exception should escape the core's join/explode functions for
per-row data issues". -/
theorem C5_tax_null_typeerror :
    explode_order_raw [] [itemTaxNull] = Except.error "TypeError"
    ∧ explode_order_row [] [itemTaxNull] = Except.error "TypeError"
    ∧ explode_order_raw [] [itemBare] = Except.ok [rowBare] := by decide

/-! ## Claim C6 -/

/-- Counterexample to C6: in `item06` the first units field is present with
the non-null value `0`, but the exploder resolves units to the second
field's `5` — Python's `or` skips a present `0`, so "a present value of 0 in
the first field is kept" is false. -/
theorem C6_counterexample :
    item06.units = some (PyVal.vNum 0)
    ∧ explode_order_raw [] [item06] = Except.ok [row06]
    ∧ row06.units = PyVal.vNum 5
    ∧ ¬ row06.units = PyVal.vNum 0 := by
  refine ⟨rfl, ?_, by decide, by decide⟩
  norm_num [explode_order_raw, explodeItemRaw, item06, row06, List.mapM,
    List.mapM.loop, explodeItem, resolveUnits, resolvePrice, asNum, discountStep,
    guardedMulRound, pyMulOpt, optToPy, catGet, infoWeight, infoAttrs,
    infoOrigin, infoHs, infoSubCat, scanNet, pyOr, PyVal.truthy, Option.getD,
    Except.bind, Except.map, List.find?, List.foldl, vNum_ne_vNone,
    vStr_ne_vNone, Option.some_ne_none, Option.map_some', roundTo, rhe]

/-- Claim C6 as amended: units are resolved from `units` then `quantity`,
and price from `price` then `unitPrice`, by Python `or`-fallback — the first
field wins exactly when its value is truthy (non-null, non-zero, non-empty);
a present `0` in the first field is skipped and the second field's value is
used, as for `item06` where units resolve to `5`. -/
theorem C6_or_fallback_truthy :
    (∀ a b : PyVal, (a.truthy = true → pyOr a b = a)
      ∧ (a.truthy = false → pyOr a b = b))
    ∧ (∀ item : LineItem,
        resolveUnits item =
          pyOr (item.units.getD PyVal.vNone) (item.quantity.getD PyVal.vNone)
        ∧ resolvePrice item =
          pyOr (item.price.getD PyVal.vNone) (item.unitPrice.getD PyVal.vNone))
    ∧ (∀ (lk : List (PyVal × CatEntry)) (item : LineItem) (t d : ℚ),
        item.tax.getD (PyVal.vNum 0) = PyVal.vNum t →
        item.discount.getD (PyVal.vNum 0) = PyVal.vNum d →
        noneOrNum (resolveUnits item) → noneOrNum (resolvePrice item) →
        noneOrNum (infoWeight (catGet lk (item.productId.getD PyVal.vNone))) →
        ∃ sc row, explodeItem lk item = Except.ok (sc, row)
          ∧ row.units = resolveUnits item)
    ∧ resolveUnits item06 = PyVal.vNum 5 := by
  refine ⟨fun a b => ⟨fun h => ?_, fun h => ?_⟩, fun item => ⟨rfl, rfl⟩,
    fun lk item t d ht hd hu hp hw =>
      ⟨_, _, explodeItem_ok lk item t d ht hd hu hp hw, rfl⟩, by decide⟩
  · simp [pyOr, h]
  · simp [pyOr, h]

/-- Witness for the amended C6: a truthy first field is kept, and the
exploder's row carries the resolved units for `item06`. -/
theorem C6_or_fallback_truthy_witness :
    ((PyVal.vNum 1).truthy = true → pyOr (PyVal.vNum 1) (PyVal.vNum 2) = PyVal.vNum 1)
    ∧ (∃ sc row, explodeItem [] item06 = Except.ok (sc, row)
        ∧ row.units = resolveUnits item06) :=
  ⟨(C6_or_fallback_truthy.1 (PyVal.vNum 1) (PyVal.vNum 2)).1,
    C6_or_fallback_truthy.2.2.1 [] item06 0 0 (by decide) (by decide)
      (Or.inr ⟨5, by decide⟩) (Or.inr ⟨10, by decide⟩) (Or.inl (by decide))⟩

/-! ## Attribute-scan lemmas -/

/-- One step of `scanNet` exposed on a snoc list. -/
theorem scanNet_concat (attrs : List Attr) (a : Attr) :
    scanNet (attrs ++ [a]) =
      match pyFloat? a.value with
      | Option.none => scanNet attrs
      | some v => if a.name = "Peso Neto" then some v else scanNet attrs := by
  simp only [scanNet, List.foldl_append, List.foldl_cons, List.foldl_nil]

/-- `lastAttr` on a snoc list. -/
theorem lastAttr_concat (key : String) (l : List Attr) (a : Attr) :
    lastAttr key (l ++ [a]) =
      if pyLower (pyStrip a.name) = key then some a.value else lastAttr key l := by
  by_cases h : pyLower (pyStrip a.name) = key
  · simp [lastAttr, List.filter_append, h]
  · simp [lastAttr, List.filter_append, h]

/-- `lastNet` on a snoc list. -/
theorem lastNet_concat (l : List Attr) (a : Attr) :
    lastNet (l ++ [a]) =
      match pyFloat? a.value with
      | Option.none => lastNet l
      | some v => if a.name = "Peso Neto" then some v else lastNet l := by
  cases hv : pyFloat? a.value with
  | none => simp [lastNet, List.filter_append, hv]
  | some v =>
    by_cases h : a.name = "Peso Neto"
    · simp [lastNet, List.filter_append, hv, h]
    · simp [lastNet, List.filter_append, hv, h]

/-- The net-weight scan keeps the value of the last attribute named exactly
`"Peso Neto"` whose value parses. -/
theorem scanNet_eq_lastNet (attrs : List Attr) : scanNet attrs = lastNet attrs := by
  induction attrs using List.reverseRecOn with
  | nil => rfl
  | append_singleton l a ih =>
    rw [scanNet_concat, lastNet_concat, ih]

/-- The attribute scan of the catalog builder keeps, for each recognized
name, the value of the last attribute carrying it. -/
theorem foldl_scanAttrStep (l : List Attr) (st : PyVal × PyVal × PyVal) :
    l.foldl scanAttrStep st =
      ((lastAttr "origen" l).getD st.1,
        (lastAttr "taric" l).getD st.2.1,
        (lastAttr "product line" l).getD st.2.2) := by
  induction l using List.reverseRecOn with
  | nil => simp [lastAttr]
  | append_singleton l a ih =>
    rw [List.foldl_append, List.foldl_cons, List.foldl_nil, ih]
    by_cases h1 : pyLower (pyStrip a.name) = "origen"
    · simp [scanAttrStep, lastAttr_concat, h1]
    · by_cases h2 : pyLower (pyStrip a.name) = "taric"
      · simp [scanAttrStep, lastAttr_concat, h1, h2]
      · by_cases h3 : pyLower (pyStrip a.name) = "product line"
        · simp [scanAttrStep, lastAttr_concat, h1, h2, h3]
        · simp [scanAttrStep, lastAttr_concat, h1, h2, h3]

/-! ## Claim C10 -/

/-- Claim C10: when several attributes share a recognized name, the last
occurrence wins — the catalog builder keeps the last-seen `origen`, `taric`
and `product line` values, and the net-weight scan keeps the last
`"Peso Neto"` attribute whose value parses as a number; neither loop stops
at the first match.  `prodDup` exhibits both: its second (space/case
variant) `origen` value `"FR"` and its last `Peso Neto` value `7` win. -/
theorem C10_last_occurrence_wins :
    (∀ p : Product,
      (entryOf p).origin =
          (lastAttr "origen" (p.attributes.getD [])).getD PyVal.vNone
        ∧ (entryOf p).hsCode =
          (lastAttr "taric" (p.attributes.getD [])).getD PyVal.vNone
        ∧ (entryOf p).subCat =
          (lastAttr "product line" (p.attributes.getD [])).getD
            (PyVal.vStr "Sin linea de productos"))
    ∧ (∀ attrs : List Attr, scanNet attrs = lastNet attrs)
    ∧ (entryOf prodDup).origin = PyVal.vStr "FR"
    ∧ scanNet (prodDup.attributes.getD []) = some 7 := by
  refine ⟨fun p => ?_, scanNet_eq_lastNet, by decide, by decide⟩
  rw [entryOf, foldl_scanAttrStep]
  exact ⟨rfl, rfl, rfl⟩

/-! ## String-order lemmas -/

/-- `strLeB` coincides with the lexicographic (non-strict) order on
code-point sequences. -/
theorem strLeB_iff (as bs : List Char) :
    strLeB as bs = true ↔ (as = bs ∨ List.Lex (· < ·) as bs) := by
  induction as generalizing bs with
  | nil =>
    cases bs with
    | nil => simp [strLeB]
    | cons b bs =>
      simp only [strLeB, true_iff]
      exact Or.inr (List.Lex.nil)
  | cons a as ih =>
    cases bs with
    | nil =>
      simp only [strLeB, Bool.false_eq_true, false_iff]
      rintro (h | h)
      · exact List.cons_ne_nil a as h
      · exact List.Lex.not_nil_right _ _ h
    | cons b bs =>
      rw [strLeB]
      rcases lt_trichotomy a b with hab | hab | hab
      · simp only [if_pos hab, true_iff]
        exact Or.inr (List.Lex.rel hab)
      · subst hab
        rw [if_neg (lt_irrefl a), if_pos rfl, ih]
        constructor
        · rintro (rfl | h)
          · exact Or.inl rfl
          · exact Or.inr (List.Lex.cons h)
        · rintro (h | h)
          · cases h
            exact Or.inl rfl
          · exact Or.inr (List.Lex.cons_iff.mp h)
      · rw [if_neg (asymm hab), if_neg (ne_of_gt hab)]
        simp only [Bool.false_eq_true, false_iff]
        rintro (h | h)
        · cases h
          exact lt_irrefl a hab
        · cases h with
          | cons h' => exact lt_irrefl a hab
          | rel h' => exact absurd h' (asymm hab)

/-- The Python string comparison used by the sort agrees with Lean's
`String` order. -/
theorem labLe_iff_le (s t : String) : labLe s t ↔ s ≤ t := by
  rw [labLe, strLeB_iff, String.le_iff_toList_le]
  rw [le_iff_lt_or_eq, or_comm]
  exact Iff.rfl

/-! ## Grouping lemmas -/

/-- A key no entry carries is not found. -/
theorem groupGet_of_not_mem (g : List (PyVal × List RowData)) (k : PyVal)
    (h : g.any (fun kv => kv.1 == k) = false) : groupGet g k = [] := by
  induction g with
  | nil => rfl
  | cons kv g ih =>
    have hk : ¬ kv.1 = k := by
      intro he
      simp [List.any_cons, he] at h
    rw [groupGet, List.find?_cons_of_neg _ (by simp [hk])]
    exact ih (by simpa [List.any_cons, hk] using h)

/-- `groupGet` of a cons whose head carries the key. -/
theorem groupGet_cons_pos (kv : PyVal × List RowData)
    (g : List (PyVal × List RowData)) (k : PyVal) (h : kv.1 = k) :
    groupGet (kv :: g) k = kv.2 := by
  rw [groupGet, List.find?_cons_of_pos _ (by simp [h])]
  rfl

/-- `groupGet` of a cons whose head carries another key. -/
theorem groupGet_cons_neg (kv : PyVal × List RowData)
    (g : List (PyVal × List RowData)) (k : PyVal) (h : ¬ kv.1 = k) :
    groupGet (kv :: g) k = groupGet g k := by
  rw [groupGet, List.find?_cons_of_neg _ (by simp [h]), groupGet]

/-- Appending to the list stored under key `k'` changes only that key's
members. -/
theorem groupGet_map_append (g : List (PyVal × List RowData)) (k' k : PyVal)
    (r : RowData) :
    groupGet (g.map (fun kv => if kv.1 = k' then (kv.1, kv.2 ++ [r]) else kv)) k =
      if k' = k ∧ g.any (fun kv => kv.1 == k) = true then groupGet g k ++ [r]
      else groupGet g k := by
  induction g with
  | nil => simp [groupGet]
  | cons kv g ih =>
    rw [List.map_cons]
    by_cases hk : kv.1 = k
    · by_cases hk' : kv.1 = k'
      · rw [if_pos hk',
          groupGet_cons_pos (kv.1, kv.2 ++ [r]) _ k hk,
          groupGet_cons_pos kv g k hk,
          if_pos ⟨hk'.symm.trans hk, by simp [List.any_cons, hk]⟩]
      · rw [if_neg hk',
          groupGet_cons_pos kv _ k hk,
          groupGet_cons_pos kv g k hk,
          if_neg (fun hc => hk' (hk.trans hc.1.symm))]
    · have hhead : (if kv.1 = k' then (kv.1, kv.2 ++ [r]) else kv).1 = kv.1 := by
        by_cases h : kv.1 = k' <;> simp [h]
      rw [groupGet_cons_neg _ _ k (hhead.symm ▸ hk),
        groupGet_cons_neg kv g k hk, ih]
      have hany : ((kv :: g).any fun kv => kv.1 == k) = (g.any fun kv => kv.1 == k) := by
        simp [List.any_cons, hk]
      rw [hany]

/-- Appending a fresh pair is invisible to every other key. -/
theorem groupGet_append_ne (g : List (PyVal × List RowData)) (k' k : PyVal)
    (r : RowData) (h : ¬ k' = k) :
    groupGet (g ++ [(k', [r])]) k = groupGet g k := by
  induction g with
  | nil =>
    rw [List.nil_append, groupGet_cons_neg _ _ _ h]
  | cons kv g ih =>
    by_cases hk : kv.1 = k
    · rw [List.cons_append, groupGet_cons_pos kv _ k hk, groupGet_cons_pos kv g k hk]
    · rw [List.cons_append, groupGet_cons_neg kv _ k hk,
        groupGet_cons_neg kv g k hk, ih]

/-- A key absent from the dict lands in the appended singleton group. -/
theorem groupGet_append_self (g : List (PyVal × List RowData)) (k : PyVal)
    (r : RowData) (h : g.any (fun kv => kv.1 == k) = false) :
    groupGet (g ++ [(k, [r])]) k = [r] := by
  induction g with
  | nil => rw [List.nil_append, groupGet_cons_pos _ _ _ rfl]
  | cons kv g ih =>
    have hkv : ¬ kv.1 = k := by
      intro he
      simp [List.any_cons, he] at h
    rw [List.cons_append, groupGet_cons_neg kv _ k hkv]
    exact ih (by simpa [List.any_cons, hkv] using h)

/-- `setdefault(k).append(r)` appends `r` to exactly the group of key `k`. -/
theorem groupGet_groupIns (g : List (PyVal × List RowData)) (k' k : PyVal)
    (r : RowData) :
    groupGet (groupIns g k' r) k =
      if k' = k then groupGet g k ++ [r] else groupGet g k := by
  rw [groupIns]
  by_cases hany : g.any (fun kv => kv.1 == k') = true
  · rw [if_pos hany, groupGet_map_append]
    by_cases hk : k' = k
    · subst hk
      simp [hany]
    · simp [hk]
  · rw [if_neg hany]
    by_cases hk : k' = k
    · subst hk
      rw [if_pos rfl, groupGet_of_not_mem g k' (Bool.of_not_eq_true hany),
        List.nil_append,
        groupGet_append_self g k' r (Bool.of_not_eq_true hany)]
    · rw [if_neg hk]
      exact groupGet_append_ne g k' k r hk

/-- The grouping loop partitions the rows: the group of key `k` holds, in
original order, exactly the rows whose subcategory is `k`. -/
theorem groupGet_foldl (prs : List (PyVal × RowData))
    (g0 : List (PyVal × List RowData)) (k : PyVal) :
    groupGet (prs.foldl (fun g pr => groupIns g pr.1 pr.2) g0) k =
      groupGet g0 k ++ (prs.filter (fun pr => pr.1 == k)).map Prod.snd := by
  induction prs generalizing g0 with
  | nil => simp
  | cons pr prs ih =>
    rw [List.foldl_cons, ih, groupGet_groupIns]
    by_cases h : pr.1 = k
    · simp [List.filter_cons, h]
    · simp [List.filter_cons, h]

/-- Inserting preserves existing keys and adds the inserted one. -/
theorem groupIns_any (g : List (PyVal × List RowData)) (k k0 : PyVal) (r : RowData) :
    (groupIns g k r).any (fun kv => kv.1 == k0) =
      (g.any (fun kv => kv.1 == k0) || (k == k0)) := by
  rw [groupIns]
  by_cases hany : g.any (fun kv => kv.1 == k) = true
  · rw [if_pos hany, List.any_map]
    have hcomp :
        ((fun kv : PyVal × List RowData => kv.1 == k0) ∘
          fun kv => if kv.1 = k then (kv.1, kv.2 ++ [r]) else kv) =
          (fun kv : PyVal × List RowData => kv.1 == k0) := by
      funext kv
      by_cases h : kv.1 = k <;> simp [h]
    rw [hcomp]
    by_cases hk : k = k0
    · subst hk
      simp [hany]
    · simp [hk]
  · rw [if_neg hany, List.any_append]
    simp

/-- Every processed row's key owns a group. -/
theorem groupRows_any_foldl (prs : List (PyVal × RowData))
    (g0 : List (PyVal × List RowData)) (k0 : PyVal) :
    (prs.foldl (fun g pr => groupIns g pr.1 pr.2) g0).any (fun kv => kv.1 == k0) =
      (g0.any (fun kv => kv.1 == k0) || prs.any (fun pr => pr.1 == k0)) := by
  induction prs generalizing g0 with
  | nil => simp
  | cons pr prs ih =>
    rw [List.foldl_cons, ih, groupIns_any]
    simp [List.any_cons, Bool.or_assoc, Bool.or_comm, Bool.or_left_comm]

/-- The insertion sort by label produces labels that ascend in Lean's
`String` order. -/
theorem sortSubtotals_sorted (l : List (String × List RowData × Option ℚ)) :
    List.Sorted (fun s t : String => s ≤ t)
      ((sortSubtotals l).map (fun x => x.1)) := by
  haveI htot : IsTotal (String × List RowData × Option ℚ) groupLe :=
    ⟨fun a b =>
      (le_total a.1 b.1).imp (labLe_iff_le a.1 b.1).mpr (labLe_iff_le b.1 a.1).mpr⟩
  haveI htrans : IsTrans (String × List RowData × Option ℚ) groupLe :=
    ⟨fun a b c h h' =>
      (labLe_iff_le a.1 c.1).mpr
        (le_trans ((labLe_iff_le a.1 b.1).mp h) ((labLe_iff_le b.1 c.1).mp h'))⟩
  have hs : List.Sorted groupLe (sortSubtotals l) :=
    List.sorted_insertionSort groupLe l
  rw [List.Sorted, List.pairwise_map]
  exact hs.imp (fun h => (labLe_iff_le _ _).mp h)

/-! ## Scenario 3 evaluation -/

theorem entryA_eval : catGet catAB (PyVal.vStr "PA") =
    some ⟨PyVal.vNone, PyVal.vNone, PyVal.vStr "A",
      some [⟨"Product Line", PyVal.vStr "A"⟩], PyVal.vNone⟩ := by decide

theorem entryB_eval : catGet catAB (PyVal.vStr "PB") =
    some ⟨PyVal.vNone, PyVal.vNone, PyVal.vStr "B",
      some [⟨"product line", PyVal.vStr "B"⟩], PyVal.vNone⟩ := by decide

theorem expA : explodeItem catAB itemA = Except.ok (PyVal.vStr "A", rowA) := by
  norm_num [explodeItem, itemA, rowA, resolveUnits, resolvePrice, asNum,
    discountStep, guardedMulRound, pyMulOpt, optToPy, entryA_eval, infoWeight,
    infoAttrs, infoOrigin, infoHs, infoSubCat, pyOr, PyVal.truthy, Option.getD,
    Except.bind, vNum_ne_vNone, vStr_ne_vNone, Option.some_ne_none,
    Option.map_some', roundTo, rhe,
    (show scanNet [⟨"Product Line", PyVal.vStr "A"⟩] = Option.none by decide)]

theorem expB : explodeItem catAB itemB = Except.ok (PyVal.vStr "B", rowB) := by
  norm_num [explodeItem, itemB, rowB, resolveUnits, resolvePrice, asNum,
    discountStep, guardedMulRound, pyMulOpt, optToPy, entryB_eval, infoWeight,
    infoAttrs, infoOrigin, infoHs, infoSubCat, pyOr, PyVal.truthy, Option.getD,
    Except.bind, vNum_ne_vNone, vStr_ne_vNone, Option.some_ne_none,
    Option.map_some', roundTo, rhe,
    (show scanNet [⟨"product line", PyVal.vStr "B"⟩] = Option.none by decide)]

theorem scenario3 : explode_order_row catAB [itemB, itemA] = Except.ok
    [OutRow.header "A", OutRow.data rowA,
      OutRow.subtotalRow (some 1) (some 2) (some 2) Option.none,
      OutRow.header "B", OutRow.data rowB,
      OutRow.subtotalRow (some 4) (some 20) (some 20) Option.none] := by
  have h1 : [itemB, itemA].mapM (explodeItem catAB) =
      Except.ok [(PyVal.vStr "B", rowB), (PyVal.vStr "A", rowA)] := by
    simp [List.mapM, List.mapM.loop, expA, expB, Except.bind, Except.instMonad, Except.pure]
  have h2 : groupRows [(PyVal.vStr "B", rowB), (PyVal.vStr "A", rowA)] =
      [(PyVal.vStr "B", [rowB]), (PyVal.vStr "A", [rowA])] := by decide
  have h3 : subtotalsOf [(PyVal.vStr "B", [rowB]), (PyVal.vStr "A", [rowA])] =
      [("B", [rowB], some 20), ("A", [rowA], some 2)] := by
    norm_num [subtotalsOf, sumMin1, labelOf, rowA, rowB,
      List.filterMap_cons, List.filterMap_nil, List.sum_cons, List.sum_nil,
      (show pyStrip "B" = "B" by decide), (show pyStrip "A" = "A" by decide)]
  have h4 : sortSubtotals [("B", [rowB], some 20), ("A", [rowA], some 2)] =
      [("A", [rowA], some 2), ("B", [rowB], some 20)] := by
    simp [sortSubtotals, List.insertionSort, List.orderedInsert,
      (show ¬ groupLe ("B", [rowB], some 20) ("A", [rowA], some 2) by decide)]
  rw [explode_order_row, h1, Except.map, h2, h3, h4]
  norm_num [emitGroup, sumMin1, coerceNum, rowA, rowB,
    List.filterMap_cons, List.filterMap_nil, List.sum_cons, List.sum_nil,
    Option.map_some', roundTo, rhe]

/-! ## Claim C2 -/

/-- Claim C2: in grouped mode the exploder partitions the rows by resolved
subcategory (each key's group holds exactly its rows, in original order, and
every row's key owns a group), emits per group a header, the members, then a
subtotal row, with groups in ascending alphabetical order of label; the
two-item scenario with subcategories `"A"` and `"B"` (fed in reverse order)
yields `[header A, item, subtotal A, header B, item, subtotal B]`.  A null
subcategory's label is the fixed `"Sin categoría"` (`labelOf`). -/
theorem C2_grouped_partition_order :
    (∀ (lk : List (PyVal × CatEntry)) (items : List LineItem)
        (prs : List (PyVal × RowData)),
      items.mapM (explodeItem lk) = Except.ok prs →
      explode_order_row lk items =
        Except.ok
          (((sortSubtotals (subtotalsOf (groupRows prs))).map emitGroup).flatten))
    ∧ (∀ (prs : List (PyVal × RowData)) (k : PyVal),
        groupGet (groupRows prs) k =
          (prs.filter (fun pr => pr.1 == k)).map Prod.snd)
    ∧ (∀ (prs : List (PyVal × RowData)) (pr : PyVal × RowData), pr ∈ prs →
        (groupRows prs).any (fun kv => kv.1 == pr.1) = true)
    ∧ (∀ l : List (String × List RowData × Option ℚ),
        List.Sorted (fun s t : String => s ≤ t)
          ((sortSubtotals l).map (fun x => x.1)))
    ∧ labelOf PyVal.vNone = "Sin categoría"
    ∧ explode_order_row catAB [itemB, itemA] = Except.ok
        [OutRow.header "A", OutRow.data rowA,
          OutRow.subtotalRow (some 1) (some 2) (some 2) Option.none,
          OutRow.header "B", OutRow.data rowB,
          OutRow.subtotalRow (some 4) (some 20) (some 20) Option.none] := by
  refine ⟨fun lk items prs h => ?_, fun prs k => ?_, fun prs pr h => ?_,
    sortSubtotals_sorted, rfl, scenario3⟩
  · rw [explode_order_row, h]
    rfl
  · simpa using groupGet_foldl prs [] k
  · rw [groupRows, groupRows_any_foldl]
    simp only [List.any_nil, Bool.false_or]
    exact List.any_eq_true.mpr ⟨pr, h, by simp⟩

/-- Witness for C2: the first conjunct applied to scenario 3's input, whose
per-item explosion is the concrete pair list. -/
theorem C2_grouped_partition_order_witness :
    [itemB, itemA].mapM (explodeItem catAB) =
      Except.ok [(PyVal.vStr "B", rowB), (PyVal.vStr "A", rowA)]
    ∧ explode_order_row catAB [itemB, itemA] =
      Except.ok
        (((sortSubtotals (subtotalsOf
            (groupRows [(PyVal.vStr "B", rowB), (PyVal.vStr "A", rowA)]))).map
          emitGroup).flatten) := by
  have h1 : [itemB, itemA].mapM (explodeItem catAB) =
      Except.ok [(PyVal.vStr "B", rowB), (PyVal.vStr "A", rowA)] := by
    simp [List.mapM, List.mapM.loop, expA, expB, Except.bind, Except.instMonad,
      Except.pure]
  exact ⟨h1, C2_grouped_partition_order.1 catAB [itemB, itemA] _ h1⟩

/-! ## Claim C3 -/

/-- `pandas`' `sum(min_count=1)` refines the spec-side
sum-with-at-least-one-value. -/
theorem sumMin1_eq_specSum (xs : List (Option ℚ)) : sumMin1 xs = specSum xs := by
  by_cases h : xs.all (fun x => x.isNone) = true
  · have he : xs.filterMap id = [] := by
      rw [List.filterMap_eq_nil_iff]
      intro a ha
      have := List.all_eq_true.mp h a ha
      simpa [Option.isNone_iff_eq_none] using this
    rw [sumMin1, specSum, he, if_pos h]
  · rcases he : xs.filterMap id with _ | ⟨v, vs⟩
    · exfalso
      apply h
      rw [List.all_eq_true]
      intro a ha
      have := List.filterMap_eq_nil_iff.mp he a ha
      simpa [Option.isNone_iff_eq_none] using this
    · rw [sumMin1, specSum, he, if_neg h]

/-- Claim C3: every subtotal row emitted for a group aggregates the member
rows' Units, Subtotal, Total and total-weight fields as the sum of the
defined values, rounded to 1, 2, 2 and 3 decimals respectively; a field all
of whose members are undefined aggregates to undefined, not zero. -/
theorem C3_subtotal_aggregation :
    (∀ xs : List (Option ℚ), sumMin1 xs = specSum xs)
    ∧ (∀ x : String × List RowData × Option ℚ,
        (emitGroup x).getLast? = some (OutRow.subtotalRow
          ((specSum (x.2.1.map (fun r => coerceNum r.units))).map (roundTo 1))
          ((specSum (x.2.1.map (fun r => r.subtotal))).map (roundTo 2))
          ((specSum (x.2.1.map (fun r => r.total))).map (roundTo 2))
          ((specSum (x.2.1.map (fun r => r.totalW))).map (roundTo 3))))
    ∧ (∀ x : String × List RowData × Option ℚ,
        (∀ r ∈ x.2.1, r.subtotal = Option.none) →
        (specSum (x.2.1.map (fun r => r.subtotal))).map (roundTo 2) = Option.none)
    ∧ (∀ (lk : List (PyVal × CatEntry)) (items : List LineItem)
        (prs : List (PyVal × RowData)),
      items.mapM (explodeItem lk) = Except.ok prs →
      explode_order_row lk items =
        Except.ok
          (((sortSubtotals (subtotalsOf (groupRows prs))).map emitGroup).flatten)) := by
  refine ⟨sumMin1_eq_specSum, fun x => ?_, fun x h => ?_, fun lk items prs h => ?_⟩
  · rw [emitGroup, ← List.cons_append, List.getLast?_concat,
      sumMin1_eq_specSum, sumMin1_eq_specSum, sumMin1_eq_specSum,
      sumMin1_eq_specSum]
  · have hall : (x.2.1.map (fun r => r.subtotal)).all (fun v => v.isNone) = true := by
      rw [List.all_eq_true]
      intro v hv
      rcases List.mem_map.mp hv with ⟨r, hr, rfl⟩
      simp [h r hr]
    rw [specSum, if_pos hall]
    rfl
  · rw [explode_order_row, h]
    rfl

/-- Witness for C3: a singleton group whose only member has an undefined
subtotal aggregates to undefined, and the linkage conjunct applies to the
one-item explosion. -/
theorem C3_subtotal_aggregation_witness :
    ((∀ r ∈ [rowBare], r.subtotal = Option.none) ∧
      (specSum ([rowBare].map (fun r => r.subtotal))).map (roundTo 2) = Option.none)
    ∧ ([itemBare].mapM (explodeItem []) = Except.ok [(PyVal.vNone, rowBare)]
      ∧ explode_order_row [] [itemBare] =
        Except.ok
          (((sortSubtotals (subtotalsOf
              (groupRows [(PyVal.vNone, rowBare)]))).map emitGroup).flatten)) := by
  have hmem : ∀ r ∈ [rowBare], r.subtotal = Option.none := by decide
  have h1 : [itemBare].mapM (explodeItem []) = Except.ok [(PyVal.vNone, rowBare)] := by
    decide
  exact ⟨⟨hmem, C3_subtotal_aggregation.2.2.1 ("", [rowBare], Option.none) hmem⟩,
    ⟨h1, C3_subtotal_aggregation.2.2.2 [] [itemBare] _ h1⟩⟩

/-! ## Claim C7 -/

/-- Updating the entry of a key already present leaves it findable with the
new value. -/
theorem find?_upd (m : List (PyVal × CatEntry)) (k : PyVal) (v : CatEntry)
    (h : m.any (fun kv => kv.1 == k) = true) :
    (m.map (fun kv => if kv.1 = k then (k, v) else kv)).find?
        (fun kv => kv.1 == k) = some (k, v) := by
  induction m with
  | nil => simp at h
  | cons kv m ih =>
    by_cases hk : kv.1 = k
    · simp [List.find?_cons_of_pos, hk]
    · rw [List.map_cons, if_neg hk, List.find?_cons_of_neg _ (by simp [hk])]
      exact ih (by simpa [List.any_cons, hk] using h)

/-- A key absent from the dict is found at the appended pair. -/
theorem find?_append_self (m : List (PyVal × CatEntry)) (k : PyVal) (v : CatEntry)
    (h : m.any (fun kv => kv.1 == k) = false) :
    (m ++ [(k, v)]).find? (fun kv => kv.1 == k) = some (k, v) := by
  induction m with
  | nil => simp [List.find?]
  | cons kv m ih =>
    have hk : ¬ kv.1 = k := by
      intro he
      simp [List.any_cons, he] at h
    rw [List.cons_append, List.find?_cons_of_neg _ (by simp [hk])]
    exact ih (by simpa [List.any_cons, hk] using h)

/-- `lookup[k] = v; lookup.get(k)` returns `v`. -/
theorem catGet_dinsert_self (m : List (PyVal × CatEntry)) (k : PyVal) (v : CatEntry) :
    catGet (dinsert m k v) k = some v := by
  rw [dinsert]
  by_cases h : m.any (fun kv => kv.1 == k)
  · rw [if_pos h, catGet, find?_upd m k v h]
    rfl
  · rw [if_neg h, catGet, find?_append_self m k v (Bool.of_not_eq_true h)]
    rfl

/-- No attribute of `l` carries a recognized name, so the scan keeps its
initial state. -/
theorem lastAttr_eq_none (key : String) (l : List Attr)
    (h : ∀ a ∈ l, ¬ pyLower (pyStrip a.name) = key) :
    lastAttr key l = Option.none := by
  rw [lastAttr]
  have : l.filter (fun a => pyLower (pyStrip a.name) == key) = [] := by
    rw [ List.filter_eq_nil_iff]
    intro a ha
    simpa using h a ha
  rw [this]
  rfl

/-- Claim C7: the catalog builder keys entries by product id, skipping
products with a falsy id; attribute names are matched after trimming and
lowercasing, so any spelling with the same trimmed lower-case form behaves
identically; a kept product with no recognized attribute still gets an
entry, with null origin and HS code and the default subcategory label. -/
theorem C7_catalog_builder :
    (∀ (ps : List Product) (p : Product), (pidOf p).truthy = false →
        build_origin_hs_lookup (ps ++ [p]) = build_origin_hs_lookup ps)
    ∧ (∀ (ps : List Product) (p : Product), (pidOf p).truthy = true →
        catGet (build_origin_hs_lookup (ps ++ [p])) (pidOf p) = some (entryOf p))
    ∧ (∀ (st : PyVal × PyVal × PyVal) (a : Attr) (n : String),
        pyLower (pyStrip n) = pyLower (pyStrip a.name) →
        scanAttrStep st ⟨n, a.value⟩ = scanAttrStep st a)
    ∧ (∀ p : Product, (∀ a ∈ p.attributes.getD [], ¬ recognizedName a.name) →
        entryOf p =
          { origin := PyVal.vNone, hsCode := PyVal.vNone,
            subCat := PyVal.vStr "Sin linea de productos",
            attributes := p.attributes, weight := p.weight.getD PyVal.vNone }) := by
  refine ⟨fun ps p h => ?_, fun ps p h => ?_, fun st a n h => ?_, fun p h => ?_⟩
  · rw [build_origin_hs_lookup, List.foldl_append, List.foldl_cons, List.foldl_nil,
      h, ← build_origin_hs_lookup]
    simp
  · rw [build_origin_hs_lookup, List.foldl_append, List.foldl_cons, List.foldl_nil, h]
    simp only [if_true]
    exact catGet_dinsert_self _ _ _
  · simp only [scanAttrStep, h]
  · rw [entryOf, foldl_scanAttrStep]
    have h1 := lastAttr_eq_none "origen" (p.attributes.getD [])
      (fun a ha ha' => h a ha (Or.inl ha'))
    have h2 := lastAttr_eq_none "taric" (p.attributes.getD [])
      (fun a ha ha' => h a ha (Or.inr (Or.inl ha')))
    have h3 := lastAttr_eq_none "product line" (p.attributes.getD [])
      (fun a ha ha' => h a ha (Or.inr (Or.inr ha')))
    rw [h1, h2, h3]
    rfl

/-- Witness for C7: a falsy-id product is skipped, `prodA` is kept keyed by
its id, a trimmed case variant of `product line` scans identically, and the
attribute-free `prodPlain` still gets the default entry. -/
theorem C7_catalog_builder_witness :
    build_origin_hs_lookup ([prodA] ++ [prodNoId]) = build_origin_hs_lookup [prodA]
    ∧ catGet (build_origin_hs_lookup ([] ++ [prodA])) (pidOf prodA) = some (entryOf prodA)
    ∧ scanAttrStep (PyVal.vNone, PyVal.vNone, PyVal.vNone)
        ⟨" PRODUCT line ", PyVal.vStr "A"⟩ =
      scanAttrStep (PyVal.vNone, PyVal.vNone, PyVal.vNone)
        ⟨"Product Line", PyVal.vStr "A"⟩
    ∧ entryOf prodPlain =
      { origin := PyVal.vNone, hsCode := PyVal.vNone,
        subCat := PyVal.vStr "Sin linea de productos",
        attributes := prodPlain.attributes,
        weight := prodPlain.weight.getD PyVal.vNone } :=
  ⟨C7_catalog_builder.1 [prodA] prodNoId (by decide),
    C7_catalog_builder.2.1 [] prodA (by decide),
    C7_catalog_builder.2.2.1 (PyVal.vNone, PyVal.vNone, PyVal.vNone)
      ⟨"Product Line", PyVal.vStr "A"⟩ " PRODUCT line " (by decide),
    C7_catalog_builder.2.2.2 prodPlain (by simp [prodPlain])⟩

/-! ## Claim C8 -/

/-- Claim C8: for a line item with a catalog entry, the net weight comes
from the entry's attribute list by exact name match `"Peso Neto"` (a
lower-case variant does not match), non-numeric values are silently treated
as absent and never raise, the total net weight is `net weight × units` and
the total gross weight is the entry's gross weight `× units`, each undefined
when either factor is missing. -/
theorem C8_weights :
    (∀ (lk : List (PyVal × CatEntry)) (item : LineItem) (t d : ℚ) (e : CatEntry),
      catGet lk (item.productId.getD PyVal.vNone) = some e →
      item.tax.getD (PyVal.vNum 0) = PyVal.vNum t →
      item.discount.getD (PyVal.vNum 0) = PyVal.vNum d →
      noneOrNum (resolveUnits item) → noneOrNum (resolvePrice item) →
      noneOrNum e.weight →
      ∃ sc row, explodeItem lk item = Except.ok (sc, row)
        ∧ row.netW = scanNet (e.attributes.getD [])
        ∧ row.totalW =
          mulOptVal (scanNet (e.attributes.getD [])) (numOf (resolveUnits item))
        ∧ row.grossW = e.weight
        ∧ row.totalGrossW = mulOptVal (numOf e.weight) (numOf (resolveUnits item)))
    ∧ (∀ (attrs : List Attr) (a : Attr),
        (a.name ≠ "Peso Neto" ∨ pyFloat? a.value = Option.none) →
        scanNet (attrs ++ [a]) = scanNet attrs)
    ∧ (∀ (attrs : List Attr) (a : Attr) (v : ℚ), a.name = "Peso Neto" →
        pyFloat? a.value = some v → scanNet (attrs ++ [a]) = some v)
    ∧ scanNet [⟨"peso neto", PyVal.vNum 3⟩] = Option.none
    ∧ scanNet [⟨"Peso Neto", PyVal.vStr "abc"⟩] = Option.none
    ∧ scanNet [⟨"Peso Neto", PyVal.vStr "25"⟩] = some 25 := by
  refine ⟨fun lk item t d e hent ht hd hu hp hw => ?_,
    fun attrs a h => ?_, fun attrs a v h1 h2 => ?_, by decide, by decide, by decide⟩
  · have hw' : noneOrNum (infoWeight (catGet lk (item.productId.getD PyVal.vNone))) := by
      rw [hent]; exact hw
    have h := explodeItem_ok lk item t d ht hd hu hp hw'
    rw [hent] at h
    exact ⟨_, _, h, rfl, rfl, rfl, rfl⟩
  · rw [scanNet_concat]
    rcases h with h | h
    · cases hv : pyFloat? a.value with
      | none => rfl
      | some v => simp [h]
    · simp [h]
  · rw [scanNet_concat, h2]
    simp [h1]

/-- Witness for C8: `itemD` resolves to `prodDup`'s catalog entry. -/
theorem C8_weights_witness :
    catGet (build_origin_hs_lookup [prodDup])
        (itemD.productId.getD PyVal.vNone) = some (entryOf prodDup)
    ∧ (∃ sc row,
        explodeItem (build_origin_hs_lookup [prodDup]) itemD = Except.ok (sc, row)
          ∧ row.netW = scanNet ((entryOf prodDup).attributes.getD [])
          ∧ row.totalW =
            mulOptVal (scanNet ((entryOf prodDup).attributes.getD []))
              (numOf (resolveUnits itemD))
          ∧ row.grossW = (entryOf prodDup).weight
          ∧ row.totalGrossW =
            mulOptVal (numOf (entryOf prodDup).weight) (numOf (resolveUnits itemD))) :=
  ⟨by decide,
    C8_weights.1 (build_origin_hs_lookup [prodDup]) itemD 0 0 (entryOf prodDup)
      (by decide) (by decide) (by decide) (Or.inr ⟨2, by decide⟩)
      (Or.inl (by decide)) (Or.inl (by decide))⟩

/-! ## Claim C4 -/

/-- The raw variant's dead line-262 product is a live error path the model
keeps: a string item-weight with fractional units aborts the raw explosion
before any catalog work. -/
theorem explode_order_raw_weight_typeerror :
    explode_order_raw [] [itemWx] = Except.error "TypeError" := by
  norm_num [explode_order_raw, explodeItemRaw, itemWx, pyMulOpt, resolveUnits,
    pyOr, PyVal.truthy, Option.getD, List.mapM, List.mapM.loop, Except.bind,
    Except.map, vStr_ne_vNone, vNum_ne_vNone]

/-- Claim C4: a line item whose `productId` has no catalog entry (including
a null or missing `productId`, whose lookup also misses) never makes the
exploder raise: the row still appears, with `origin`, `hsCode` and every
other catalog-derived field null, and its resolved subcategory is null,
which grouped mode maps to the fixed label `"Sin categoría"`.  The item's
own numeric fields — tax, discount, resolved units and price, and for the
raw exploder the item's own `weight`, multiplied at its line 262 — are
assumed numeric-or-absent, as elsewhere: on other values the code itself
raises regardless of the catalog. -/
theorem C4_missing_catalog_entry :
    (∀ (lk : List (PyVal × CatEntry)) (item : LineItem) (t d : ℚ),
      catGet lk (item.productId.getD PyVal.vNone) = Option.none →
      item.tax.getD (PyVal.vNum 0) = PyVal.vNum t →
      item.discount.getD (PyVal.vNum 0) = PyVal.vNum d →
      noneOrNum (resolveUnits item) → noneOrNum (resolvePrice item) →
      noneOrNum (item.weight.getD PyVal.vNone) →
      ∃ row, explodeItem lk item = Except.ok (PyVal.vNone, row)
        ∧ explode_order_raw lk [item] = Except.ok [row]
        ∧ row.origin = PyVal.vNone ∧ row.hsCode = PyVal.vNone
        ∧ row.netW = Option.none ∧ row.totalW = Option.none
        ∧ row.grossW = PyVal.vNone ∧ row.totalGrossW = Option.none)
    ∧ labelOf PyVal.vNone = "Sin categoría" := by
  refine ⟨fun lk item t d hmiss ht hd hu hp hwt => ?_, rfl⟩
  have hw : noneOrNum (infoWeight (catGet lk (item.productId.getD PyVal.vNone))) := by
    rw [hmiss]; exact Or.inl rfl
  have h := explodeItem_ok lk item t d ht hd hu hp hw
  rw [hmiss] at h
  refine ⟨_, h, ?_, rfl, rfl, ?_, ?_, rfl, ?_⟩
  · rcases hwt with hwt | ⟨w, hwt⟩ <;> rcases hu with hu' | ⟨u, hu'⟩ <;>
      simp [explode_order_raw, explodeItemRaw, List.mapM, List.mapM.loop, h,
        pyMulOpt, hwt, hu', Except.bind, Except.map, vNum_ne_vNone]
  · simp [infoAttrs, scanNet]
  · simp [infoAttrs, scanNet, mulOptVal]
  · simp [infoWeight, numOf, mulOptVal]

/-- Witness for C4: `itemBare` has no `productId` and the empty catalog has
no entry for the null id. -/
theorem C4_missing_catalog_entry_witness :
    catGet [] (itemBare.productId.getD PyVal.vNone) = Option.none
    ∧ (∃ row, explodeItem [] itemBare = Except.ok (PyVal.vNone, row)
        ∧ explode_order_raw [] [itemBare] = Except.ok [row]
        ∧ row.origin = PyVal.vNone ∧ row.hsCode = PyVal.vNone
        ∧ row.netW = Option.none ∧ row.totalW = Option.none
        ∧ row.grossW = PyVal.vNone ∧ row.totalGrossW = Option.none) :=
  ⟨by decide,
    C4_missing_catalog_entry.1 [] itemBare 0 0 (by decide) (by decide)
      (by decide) (Or.inl (by decide)) (Or.inl (by decide))
      (Or.inl (by decide))⟩

/-! ## Claim C9 -/

/-- Every request of one page's retry loop carries `limit = 100`, and at
most three attempts are made. -/
theorem tryPage_requests (oracle : ℕ → ℕ → Option (List Product)) (page : ℕ) :
    (tryPage oracle page).1.all (fun req => req.2 == 100) = true
      ∧ (tryPage oracle page).1.length ≤ 3 := by
  rw [tryPage]
  cases h0 : oracle page 0 with
  | some c => simp
  | none =>
    cases h1 : oracle page 1 with
    | some c => simp
    | none =>
      cases h2 : oracle page 2 with
      | some c => simp
      | none => simp

/-- The pagination loop only ever issues requests with `limit = 100`. -/
theorem fetchPages_limit (oracle : ℕ → ℕ → Option (List Product)) :
    ∀ (fuel page : ℕ) (acc : List Product) (st : FetchState)
      (out : FetchState × List Product × ExitKind),
      (∀ req ∈ st.requests, req.2 = 100) →
      fetchPages oracle fuel page acc st = some out →
      ∀ req ∈ out.1.requests, req.2 = 100 := by
  intro fuel
  induction fuel with
  | zero =>
    intro page acc st out h hf
    exact absurd hf (by rw [fetchPages]; exact Option.noConfusion)
  | succ fuel ih =>
    intro page acc st out h hf
    rw [fetchPages] at hf
    rcases htp : tryPage oracle page with ⟨reqs, slps, res⟩
    have hreqs : ∀ req ∈ reqs, req.2 = 100 := by
      intro req hreq
      have hall := (tryPage_requests oracle page).1
      rw [htp] at hall
      have := List.all_eq_true.mp hall req hreq
      simpa using this
    have hboth : ∀ req ∈ st.requests ++ reqs, req.2 = 100 := by
      intro req hreq
      rcases List.mem_append.mp hreq with hreq | hreq
      · exact h req hreq
      · exact hreqs req hreq
    rw [htp] at hf
    cases res with
    | gotChunk c =>
      dsimp only at hf
      by_cases hc : c.length < 100
      · rw [if_pos hc] at hf
        cases hf
        exact hboth
      · rw [if_neg hc] at hf
        exact ih (page + 1) (acc ++ c) _ out hboth hf
    | emptyResp =>
      dsimp only at hf
      cases hf
      exact hboth
    | exhausted =>
      dsimp only at hf
      cases hf
      exact hboth

/-- Claim C9: the paginated product fetch requests pages of fixed size 100;
a page's request is retried up to 3 attempts with backoff `2 ^ attempt`
seconds; the loop stops on a page shorter than 100 entries or an empty
page; and when the retries of a page are exhausted with nothing fetched,
the function falls back to the persisted snapshot if present and otherwise
returns an empty result — it returns a value, never an exception. -/
theorem C9_fetch_pagination_retry_fallback :
    (∀ (oracle : ℕ → ℕ → Option (List Product)) (fuel : ℕ)
        (backup : Option (List Product)) (out : FetchOut),
      fetch_all_products oracle fuel backup = some out →
      ∀ req ∈ out.state.requests, req.2 = 100)
    ∧ (∀ (oracle : ℕ → ℕ → Option (List Product)) (page : ℕ),
        (tryPage oracle page).1.length ≤ 3)
    ∧ (∀ (oracle : ℕ → ℕ → Option (List Product)) (page : ℕ)
        (c : List Product),
        oracle page 0 = Option.none → oracle page 1 = some c → c ≠ [] →
        tryPage oracle page =
          ([(page, 100), (page, 100)], [2 ^ 0], PageResult.gotChunk c))
    ∧ (∀ (oracle : ℕ → ℕ → Option (List Product)) (page : ℕ),
        oracle page 0 = Option.none → oracle page 1 = Option.none →
        oracle page 2 = Option.none →
        tryPage oracle page =
          ([(page, 100), (page, 100), (page, 100)], [2 ^ 0, 2 ^ 1, 2 ^ 2],
            PageResult.exhausted))
    ∧ (∀ (oracle : ℕ → ℕ → Option (List Product)) (fuel page : ℕ)
        (acc : List Product) (st : FetchState) (reqs : List (ℕ × ℕ))
        (slps : List ℚ) (c : List Product),
        tryPage oracle page = (reqs, slps, PageResult.gotChunk c) →
        c.length < 100 →
        fetchPages oracle (fuel + 1) page acc st =
          some (⟨st.requests ++ reqs, st.sleeps ++ slps⟩, acc ++ c,
            ExitKind.stopIteration))
    ∧ (∀ (oracle : ℕ → ℕ → Option (List Product)) (fuel page : ℕ)
        (acc : List Product) (st : FetchState) (reqs : List (ℕ × ℕ))
        (slps : List ℚ),
        tryPage oracle page = (reqs, slps, PageResult.emptyResp) →
        fetchPages oracle (fuel + 1) page acc st =
          some (⟨st.requests ++ reqs, st.sleeps ++ slps⟩, acc,
            ExitKind.valueError))
    ∧ (∀ (oracle : ℕ → ℕ → Option (List Product)) (fuel : ℕ)
        (backup : Option (List Product)) (st : FetchState) (ek : ExitKind),
        fetchPages oracle fuel 1 [] ⟨[], []⟩ = some (st, [], ek) →
        fetch_all_products oracle fuel backup =
          some ⟨backup.getD [], false, backup.isSome, st⟩) := by
  refine ⟨fun oracle fuel backup out hf => ?_,
    fun oracle page => (tryPage_requests oracle page).2,
    fun oracle page c h0 h1 hc => ?_,
    fun oracle page h0 h1 h2 => ?_,
    fun oracle fuel page acc st reqs slps c htp hc => ?_,
    fun oracle fuel page acc st reqs slps htp => ?_,
    fun oracle fuel backup st ek hfp => ?_⟩
  · rw [fetch_all_products] at hf
    rcases hfp : fetchPages oracle fuel 1 [] ⟨[], []⟩ with _ | ⟨st, acc, ek⟩
    · rw [hfp] at hf
      exact absurd hf Option.noConfusion
    · rw [hfp] at hf
      dsimp only at hf
      have hout : out.state = st := by
        by_cases hacc : acc ≠ []
        · rw [if_pos hacc] at hf
          cases hf
          rfl
        · rw [if_neg hacc] at hf
          cases backup with
          | some b => cases hf; rfl
          | none => cases hf; rfl
      rw [hout]
      exact fetchPages_limit oracle fuel 1 [] ⟨[], []⟩ (st, acc, ek)
        (by intro req hreq; cases hreq) hfp
  · rw [tryPage, h0, h1]
    simp [hc]
  · rw [tryPage, h0, h1, h2]
    norm_num
  · simp only [fetchPages, htp]
    rw [if_pos hc]
  · simp only [fetchPages, htp]
  · rw [fetch_all_products, hfp]
    dsimp only
    rw [if_neg (by simp)]
    cases backup with
    | some b => rfl
    | none => rfl

/-- Witness for C9: the always-failing oracle exhausts the three retries of
page 1 with backoff 1, 2, 4 seconds and falls back to the snapshot. -/
theorem C9_fetch_pagination_retry_fallback_witness :
    tryPage oracleFail 1 =
      ([(1, 100), (1, 100), (1, 100)], [2 ^ 0, 2 ^ 1, 2 ^ 2],
        PageResult.exhausted)
    ∧ fetch_all_products oracleFail 1 (some [prodA]) =
      some ⟨(some [prodA]).getD [], false, (some [prodA]).isSome,
        ⟨[(1, 100), (1, 100), (1, 100)], [1, 2, 4]⟩⟩ := by
  have h1 := C9_fetch_pagination_retry_fallback.2.2.2.1 oracleFail 1 rfl rfl rfl
  refine ⟨h1, C9_fetch_pagination_retry_fallback.2.2.2.2.2.2 oracleFail 1
    (some [prodA]) ⟨[(1, 100), (1, 100), (1, 100)], [1, 2, 4]⟩
    ExitKind.connError ?_⟩
  simp only [fetchPages, h1]
  norm_num

end Albaran
